import Mathlib

/-!
# ToDoTracker — verification of the hierarchical-todo and attachment subsystems

Shallow embedding of the ToDoTracker service layer
(`src/todotracker/services/todo_service.py`, `services/file_service.py`,
`services/cache.py`, `models/todo.py`, `models/priority.py`,
`schemas/todo.py`).  The relational store is modelled as a list of rows;
timestamps are naturals; all service operations are pure state
transformers.  Python names are kept where Lean allows them.
-/

/-- In-memory image of a row of the `todos` table (`models/todo.py`).
Nullable columns, and columns a partial update can transiently set to
`None` on the ORM object, are `Option`s.  Timestamps are `Nat`. -/
structure Todo where
  id : String
  title : Option String := none
  description : Option String := none
  due_date : Option Nat := none
  priority : Option Nat := some 5
  completed : Bool := false
  completed_at : Option Nat := none
  parent_id : Option String := none
  category_id : Option String := none
  created_at : Nat := 0
  updated_at : Nat := 0
deriving Repr, DecidableEq

/-- A row of the `tags` table (`models/tag.py`), as far as the todo
service reads it. -/
structure Tag where
  id : String
  name : String := ""
deriving Repr, DecidableEq

/-- `TodoValidationError` messages raised by the todo service, one
constructor per distinct raise site (`todo_service.py`). -/
inductive TodoError where
  /-- "Parent todo '...' not found" -/
  | parentNotFound
  /-- "Cannot set parent: this would create a circular reference" -/
  | circularReference
  /-- "Circular reference detected in todo hierarchy"
      (the defensive bound in `_get_parent_depth`) -/
  | cycleDetected
  /-- "Maximum subtask depth of ... exceeded" -/
  | depthExceeded
  /-- "Tag(s) not found: ..." -/
  | tagsNotFound
deriving Repr, DecidableEq

/-- `select(Todo).where(Todo.id == i)` + `first()`: the first row whose
id matches. -/
def findTodo (db : List Todo) (i : String) : Option Todo :=
  db.find? (fun t => t.id = i)

/-- `select(Todo.parent_id).where(Todo.id == i)`: `none` when the row is
missing, otherwise `some` of the (nullable) parent pointer. -/
def parentOf (db : List Todo) (i : String) : Option (Option String) :=
  (findTodo db i).map (fun t => t.parent_id)

/-- `select(Todo.id).where(Todo.id == i)` ≠ `None`. -/
def todoExists (db : List Todo) (i : String) : Bool :=
  (findTodo db i).isSome

/-- The ids stored in the table, as a finite set (used only as a
termination measure for the graph walks). -/
def dbIds (db : List Todo) : Finset String :=
  (db.map Todo.id).toFinset

theorem mem_dbIds_of_parentOf {db : List Todo} {c : String} {x : Option String}
    (h : parentOf db c = some x) : c ∈ dbIds db := by
  unfold parentOf findTodo at h
  cases hf : List.find? (fun t => t.id = c) db with
  | none => rw [hf] at h; simp at h
  | some t =>
    have hmem := List.mem_of_find?_eq_some hf
    have hid := List.find?_some hf
    simp only [decide_eq_true_eq] at hid
    unfold dbIds
    rw [List.mem_toFinset]
    exact hid ▸ List.mem_map_of_mem Todo.id hmem

/-- The loop of `TodoService._get_parent_depth` (`todo_service.py:70`),
with the iteration budget made explicit: the Python loop raises once
`iterations > max_subtask_depth + 10`, i.e. after `maxDepth + 11` full
loop bodies, so the walk is run on exactly that much fuel. -/
def _get_parent_depth_go (db : List Todo) : Nat → String → Nat → Except TodoError Nat
  | 0, _, _ => .error .cycleDetected
  | fuel + 1, current, depth =>
    match parentOf db current with
    | none => .ok depth          -- row missing: break
    | some none => .ok depth     -- reached a root: break
    | some (some p) => _get_parent_depth_go db fuel p (depth + 1)

/-- `TodoService._get_parent_depth` (`todo_service.py:70-101`): number of
ancestors of `parent_id`, erroring after `maxDepth + 10` iterations. -/
def _get_parent_depth (db : List Todo) (maxDepth : Nat) (parent_id : String) :
    Except TodoError Nat :=
  _get_parent_depth_go db (maxDepth + 11) parent_id 0

/-- The upward `while` loop of `TodoService._would_create_cycle`
(`todo_service.py:112-126`): `visited` starts as `{todo_id}`; the walk
returns `true` as soon as the current id repeats, and stops (falling
through to the descendant check, here `false`) on a missing row or a
null parent.  Total by well-founded recursion: every recursive step
leaves `current` in the table and freshly visited. -/
def upward_walk (db : List Todo) (visited : List String) (current : String) : Bool :=
  if current ∈ visited then true
  else
    match h : parentOf db current with
    | none => false
    | some none => false
    | some (some p) => upward_walk db (current :: visited) p
termination_by (dbIds db \ visited.toFinset).card
decreasing_by
  rename_i hv
  have hcur : current ∈ dbIds db \ visited.toFinset := by
    rw [Finset.mem_sdiff, List.mem_toFinset]
    exact ⟨mem_dbIds_of_parentOf h, hv⟩
  have hstep : dbIds db \ (current :: visited).toFinset
      = (dbIds db \ visited.toFinset).erase current := by
    rw [List.toFinset_cons, Finset.sdiff_insert]
  rw [hstep]
  exact Finset.card_erase_lt_of_mem hcur

/-- One pass of the `for row in result` body of
`TodoService._get_all_descendant_ids` (`todo_service.py:142-146`) over
the whole table: every not-yet-seen child of `current` is recorded and
pushed.  The Python worklist appends at the tail and pops from the tail;
the model keeps the worklist reversed (push/pop at the head), an exact
simulation of the LIFO discipline. -/
def add_children (db : List Todo) (current : String)
    (acc : List String × List String) : List String × List String :=
  db.foldl
    (fun acc t =>
      if t.parent_id = some current then
        if t.id ∈ acc.1 then acc else (t.id :: acc.1, t.id :: acc.2)
      else acc)
    acc

theorem add_children_measure (db : List Todo) (current : String)
    (acc : List String × List String) :
    (dbIds db \ (add_children db current acc).1.toFinset).card
        + (add_children db current acc).2.length
      ≤ (dbIds db \ acc.1.toFinset).card + acc.2.length := by
  unfold add_children
  have main : ∀ (l : List Todo), (∀ t ∈ l, t.id ∈ dbIds db) → ∀ acc : List String × List String,
      (dbIds db \ (l.foldl (fun acc t =>
        if t.parent_id = some current then
          if t.id ∈ acc.1 then acc else (t.id :: acc.1, t.id :: acc.2)
        else acc) acc).1.toFinset).card
        + (l.foldl (fun acc t =>
        if t.parent_id = some current then
          if t.id ∈ acc.1 then acc else (t.id :: acc.1, t.id :: acc.2)
        else acc) acc).2.length
      ≤ (dbIds db \ acc.1.toFinset).card + acc.2.length := by
    intro l
    induction l with
    | nil => intro _ acc; simp
    | cons t rest ih =>
      intro hmem acc
      have ht : t.id ∈ dbIds db := hmem t (List.mem_cons_self t rest)
      have hrest : ∀ u ∈ rest, u.id ∈ dbIds db := fun u hu => hmem u (List.mem_cons_of_mem t hu)
      simp only [List.foldl_cons]
      refine le_trans (ih hrest _) ?_
      by_cases hp : t.parent_id = some current
      · by_cases hin : t.id ∈ acc.1
        · simp [hp, hin]
        · rw [if_pos hp, if_neg hin]
          have hmem2 : t.id ∈ dbIds db \ acc.1.toFinset := by
            rw [Finset.mem_sdiff, List.mem_toFinset]
            exact ⟨ht, hin⟩
          have hstep : dbIds db \ (t.id :: acc.1).toFinset
              = (dbIds db \ acc.1.toFinset).erase t.id := by
            rw [List.toFinset_cons, Finset.sdiff_insert]
          simp only [hstep, List.length_cons]
          have hcard := Finset.card_erase_of_mem hmem2
          have hpos := Finset.card_pos.mpr ⟨t.id, hmem2⟩
          omega
      · simp [hp]
  exact main db (fun t htm => by
    unfold dbIds; rw [List.mem_toFinset]; exact List.mem_map_of_mem Todo.id htm) acc

/-- The `while to_visit` loop of `TodoService._get_all_descendant_ids`
(`todo_service.py:132-148`). -/
def _get_all_descendant_ids_go (db : List Todo)
    (descendants : List String) (to_visit : List String) : List String :=
  match to_visit with
  | [] => descendants
  | current :: rest =>
    _get_all_descendant_ids_go db
      (add_children db current (descendants, rest)).1
      (add_children db current (descendants, rest)).2
termination_by (dbIds db \ descendants.toFinset).card + to_visit.length
decreasing_by
  have h := add_children_measure db current (descendants, rest)
  dsimp only at h ⊢
  simp only [List.length_cons]
  omega

/-- `TodoService._get_all_descendant_ids` (`todo_service.py:132-148`):
children, grandchildren, … of `todo_id`, by worklist traversal of the
child edges. -/
def _get_all_descendant_ids (db : List Todo) (todo_id : String) : List String :=
  _get_all_descendant_ids_go db [] [todo_id]

/-- `TodoService._would_create_cycle` (`todo_service.py:103-130`). -/
def _would_create_cycle (db : List Todo) (todo_id new_parent_id : String) : Bool :=
  if todo_id = new_parent_id then true
  else if upward_walk db [todo_id] new_parent_id then true
  else new_parent_id ∈ _get_all_descendant_ids db todo_id

/-- `TodoService._validate_parent` (`todo_service.py:150-185`). -/
def _validate_parent (db : List Todo) (maxDepth : Nat)
    (parent_id : Option String) (todo_id : Option String) : Except TodoError Unit :=
  match parent_id with
  | none => .ok ()
  | some pid =>
    if todoExists db pid = false then .error .parentNotFound
    else if (match todo_id with
             | some tid => _would_create_cycle db tid pid
             | none => false) then .error .circularReference
    else
      match _get_parent_depth db maxDepth pid with
      | .error e => .error e
      | .ok parent_depth =>
        if maxDepth < parent_depth + 1 then .error .depthExceeded else .ok ()

/-- `TodoService._validate_and_get_tags` (`todo_service.py:187-214`):
all-or-nothing existence check for the requested tag ids. -/
def _validate_and_get_tags (tagDb : List Tag) (tag_ids : List String) :
    Except TodoError (List Tag) :=
  if tag_ids = [] then .ok []
  else if tag_ids.all (fun i => i ∈ (tagDb.filter (fun t => t.id ∈ tag_ids)).map Tag.id)
  then .ok (tagDb.filter (fun t => t.id ∈ tag_ids))
  else .error .tagsNotFound

/-- `TodoCreate` (`schemas/todo.py:13-22`). -/
structure TodoCreate where
  title : String
  description : Option String := none
  due_date : Option Nat := none
  priority : Nat := 5
  parent_id : Option String := none
  category_id : Option String := none
  tag_ids : List String := []
deriving Repr, DecidableEq

/-- `TodoUpdate` (`schemas/todo.py:25-34`).  The outer `Option` is the
pydantic set-flag that `model_dump(exclude_unset=True)` consults, the
inner one the JSON-nullable value.  The schema declares *no* `parent_id`
field (unlike `TodoCreate`), which is what claim C1 turns on. -/
structure TodoUpdate where
  title : Option (Option String) := none
  description : Option (Option String) := none
  due_date : Option (Option Nat) := none
  priority : Option (Option Nat) := none
  category_id : Option (Option String) := none
  tag_ids : Option (Option (List String)) := none
  completed : Option (Option Bool) := none
deriving Repr, DecidableEq

/-- A value of the `update_data` dict built at `todo_service.py:323`. -/
inductive FieldVal where
  | vStr : Option String → FieldVal
  | vNat : Option Nat → FieldVal
  | vBool : Option Bool → FieldVal
  | vList : Option (List String) → FieldVal
deriving Repr, DecidableEq

/-- One field's contribution to `model_dump(exclude_unset=True)`: its
key/value entry when set, nothing when unset. -/
def dumpEntry {β : Type} (k : String) (mk : β → FieldVal) (o : Option β) :
    List (String × FieldVal) :=
  match o with
  | some v => [(k, mk v)]
  | none => []

/-- `data.model_dump(exclude_unset=True)`: one dict entry per set field,
in field-declaration order.  `TodoUpdate` has no `parent_id` field, so
no dump ever carries a `"parent_id"` key. -/
def TodoUpdate.model_dump (u : TodoUpdate) : List (String × FieldVal) :=
  dumpEntry "title" FieldVal.vStr u.title
    ++ dumpEntry "description" FieldVal.vStr u.description
    ++ dumpEntry "due_date" FieldVal.vNat u.due_date
    ++ dumpEntry "priority" FieldVal.vNat u.priority
    ++ dumpEntry "category_id" FieldVal.vStr u.category_id
    ++ dumpEntry "tag_ids" FieldVal.vList u.tag_ids
    ++ dumpEntry "completed" FieldVal.vBool u.completed

/-- `"k" in update_data` / `update_data["k"]`. -/
def lookupField (ud : List (String × FieldVal)) (k : String) : Option FieldVal :=
  (ud.find? (fun p => p.1 = k)).map (fun p => p.2)

/-- `Todo.mark_complete` (`models/todo.py:88-91`). -/
def Todo.mark_complete (t : Todo) (now : Nat) : Todo :=
  { t with completed := true, completed_at := some now }

/-- `Todo.mark_incomplete` (`models/todo.py:93-96`). -/
def Todo.mark_incomplete (t : Todo) : Todo :=
  { t with completed := false, completed_at := none }

/-- One `setattr(todo, key, value)` of the loop at
`todo_service.py:347-348`, for the keys a `TodoUpdate`-shaped dict can
carry (plus `parent_id`, which the dict-level code would also apply). -/
def setField (t : Todo) (k : String) (v : FieldVal) : Todo :=
  if k = "title" then (match v with | .vStr s => { t with title := s } | _ => t)
  else if k = "description" then (match v with | .vStr s => { t with description := s } | _ => t)
  else if k = "due_date" then (match v with | .vNat n => { t with due_date := n } | _ => t)
  else if k = "priority" then (match v with | .vNat n => { t with priority := n } | _ => t)
  else if k = "category_id" then (match v with | .vStr s => { t with category_id := s } | _ => t)
  else if k = "parent_id" then (match v with | .vStr s => { t with parent_id := s } | _ => t)
  else t

/-- The `for key, value in update_data.items()` loop
(`todo_service.py:346-348`): `tag_ids` was popped and `completed`
deleted before the loop, every other entry is applied by `setattr`. -/
def applyFields (t : Todo) (ud : List (String × FieldVal)) : Todo :=
  ud.foldl
    (fun t p =>
      if p.1 = "tag_ids" ∨ p.1 = "completed" then t else setField t p.1 p.2)
    t

/-- Replace the first row whose id is `i` (the ORM mutates the one
loaded object; rows are keyed by primary key). -/
def replaceTodo : List Todo → String → Todo → List Todo
  | [], _, _ => []
  | u :: rest, i, t => if u.id = i then t :: rest else u :: replaceTodo rest i t

/-- Lines 326-330 of `todo_service.py`: when the dict carries a
`parent_id` entry whose value differs from the current parent, run
`_validate_parent` with the todo's own id. -/
def updateParentCheck (db : List Todo) (maxDepth : Nat) (todo_id : String)
    (current_parent : Option String) (ud : List (String × FieldVal)) :
    Except TodoError Unit :=
  match lookupField ud "parent_id" with
  | some (.vStr new_parent_id) =>
    if new_parent_id ≠ current_parent then
      _validate_parent db maxDepth new_parent_id (some todo_id)
    else .ok ()
  | _ => .ok ()

/-- Lines 333-336 of `todo_service.py`: validate the patch's tag ids
(all-or-nothing; a `tag_ids` set to null is skipped). -/
def updateTagsCheck (tagDb : List Tag) (ud : List (String × FieldVal)) :
    Except TodoError (Option (List Tag)) :=
  match lookupField ud "tag_ids" with
  | some (.vList (some tids)) =>
    (_validate_and_get_tags tagDb tids).map (fun tags => some tags)
  | _ => .ok none

/-- Lines 339-344 of `todo_service.py`: a `completed` entry is routed
through the mark methods (`if update_data["completed"]:` — a null value
is falsy and marks incomplete). -/
def applyCompleted (todo : Todo) (ud : List (String × FieldVal)) (now : Nat) : Todo :=
  match lookupField ud "completed" with
  | some (.vBool c) =>
    if c.getD false then Todo.mark_complete todo now else Todo.mark_incomplete todo
  | _ => todo

/-- Lines 339-350 of `todo_service.py`: completion routing, the
remaining scalar `setattr`s, then the `updated_at` stamp. -/
def updatedTodo (todo : Todo) (ud : List (String × FieldVal)) (now : Nat) : Todo :=
  { applyFields (applyCompleted todo ud now) ud with updated_at := now }

/-- The body of `TodoService.update` (`todo_service.py:312-354`) run on
an `update_data` dict.  `.ok none` is the `return None` (todo missing);
`.ok (some db')` the updated store. -/
def TodoService.update_data (db : List Todo) (tagDb : List Tag) (maxDepth : Nat)
    (todo_id : String) (ud : List (String × FieldVal)) (now : Nat) :
    Except TodoError (Option (List Todo)) :=
  match findTodo db todo_id with
  | none => .ok none
  | some todo =>
    match updateParentCheck db maxDepth todo_id todo.parent_id ud with
    | .error e => .error e
    | .ok _ =>
      match updateTagsCheck tagDb ud with
      | .error e => .error e
      | .ok _tags =>
        .ok (some (replaceTodo db todo_id (updatedTodo todo ud now)))

/-- `TodoService.update` as callable from the API: the patch arrives as
a `TodoUpdate` and is dumped with `exclude_unset=True`
(`todo_service.py:312-354` composed with `schemas/todo.py:25-34`). -/
def TodoService.update (db : List Todo) (tagDb : List Tag) (maxDepth : Nat)
    (todo_id : String) (data : TodoUpdate) (now : Nat) :
    Except TodoError (Option (List Todo)) :=
  TodoService.update_data db tagDb maxDepth todo_id data.model_dump now

/-- `TodoService.create` (`todo_service.py:284-310`): validate the
parent (with `todo_id=None`), validate the tags, then persist.  On a
validation error nothing has been added to the session. -/
def TodoService.create (db : List Todo) (tagDb : List Tag) (maxDepth : Nat)
    (data : TodoCreate) (newId : String) (now : Nat) :
    Except TodoError (List Todo) :=
  match _validate_parent db maxDepth data.parent_id none with
  | .error e => .error e
  | .ok _ =>
    match _validate_and_get_tags tagDb data.tag_ids with
    | .error e => .error e
    | .ok _tags =>
      .ok (db ++ [{ id := newId, title := some data.title,
                    description := data.description, due_date := data.due_date,
                    priority := some data.priority, completed := false,
                    completed_at := none, parent_id := data.parent_id,
                    category_id := data.category_id,
                    created_at := now, updated_at := now }])

/-- `TodoService.add_subtask` (`todo_service.py:373-380`): `none` when
the parent is missing, otherwise `create` with `parent_id` forced. -/
def TodoService.add_subtask (db : List Todo) (tagDb : List Tag) (maxDepth : Nat)
    (parent_id : String) (data : TodoCreate) (newId : String) (now : Nat) :
    Except TodoError (Option (List Todo)) :=
  if todoExists db parent_id = false then .ok none
  else (TodoService.create db tagDb maxDepth { data with parent_id := some parent_id }
          newId now).map (fun db' => some db')

/-- `TodoService.mark_complete` (`todo_service.py:364-371`). -/
def TodoService.mark_complete (db : List Todo) (todo_id : String) (now : Nat) :
    Option (List Todo) :=
  match findTodo db todo_id with
  | none => none
  | some todo => some (replaceTodo db todo_id (Todo.mark_complete todo now))

/-- `FileValidationError` messages raised by the file service, one
constructor per raise site (`file_service.py`). -/
inductive FileError where
  /-- "File size exceeds maximum allowed size of ... MB" -/
  | sizeExceeded
  /-- "Invalid filename" -/
  | invalidFilename
  /-- "File must have an extension" -/
  | missingExtension
  /-- "File type '...' is not allowed" -/
  | extNotAllowed
  /-- "File content does not match the '...' file type" -/
  | contentMismatch
deriving Repr, DecidableEq

/-- `MAGIC_BYTES` (`file_service.py:25-52`), bytes as naturals. -/
def MAGIC_BYTES : List (String × List (List Nat)) :=
  [ (".jpg", [[0xff, 0xd8, 0xff]]),
    (".jpeg", [[0xff, 0xd8, 0xff]]),
    (".png", [[0x89, 0x50, 0x4e, 0x47, 0x0d, 0x0a, 0x1a, 0x0a]]),
    (".gif", [[0x47, 0x49, 0x46, 0x38, 0x37, 0x61], [0x47, 0x49, 0x46, 0x38, 0x39, 0x61]]),
    (".bmp", [[0x42, 0x4d]]),
    (".webp", [[0x52, 0x49, 0x46, 0x46]]),
    (".ico", [[0x00, 0x00, 0x01, 0x00], [0x00, 0x00, 0x02, 0x00]]),
    (".pdf", [[0x25, 0x50, 0x44, 0x46]]),
    (".doc", [[0xd0, 0xcf, 0x11, 0xe0, 0xa1, 0xb1, 0x1a, 0xe1]]),
    (".docx", [[0x50, 0x4b, 0x03, 0x04]]),
    (".xls", [[0xd0, 0xcf, 0x11, 0xe0, 0xa1, 0xb1, 0x1a, 0xe1]]),
    (".xlsx", [[0x50, 0x4b, 0x03, 0x04]]),
    (".ppt", [[0xd0, 0xcf, 0x11, 0xe0, 0xa1, 0xb1, 0x1a, 0xe1]]),
    (".pptx", [[0x50, 0x4b, 0x03, 0x04]]),
    (".odt", [[0x50, 0x4b, 0x03, 0x04]]),
    (".ods", [[0x50, 0x4b, 0x03, 0x04]]),
    (".odp", [[0x50, 0x4b, 0x03, 0x04]]),
    (".rtf", [[0x7b, 0x5c, 0x72, 0x74, 0x66]]),
    (".zip", [[0x50, 0x4b, 0x03, 0x04], [0x50, 0x4b, 0x05, 0x06]]),
    (".7z", [[0x37, 0x7a, 0xbc, 0xaf, 0x27, 0x1c]]),
    (".rar", [[0x52, 0x61, 0x72, 0x21, 0x1a, 0x07]]),
    (".gz", [[0x1f, 0x8b]]),
    (".tar", [[0x75, 0x73, 0x74, 0x61, 0x72]]) ]

/-- `TEXT_EXTENSIONS` (`file_service.py:56-59`). -/
def TEXT_EXTENSIONS : List String :=
  [".txt", ".csv", ".json", ".xml", ".yaml", ".yml", ".md", ".html", ".css"]

/-- `Settings.allowed_file_extensions` (`config.py:46-56`). -/
def allowed_file_extensions : List String :=
  [ ".pdf", ".doc", ".docx", ".xls", ".xlsx", ".ppt", ".pptx",
    ".odt", ".ods", ".odp", ".txt", ".rtf", ".csv",
    ".jpg", ".jpeg", ".png", ".gif", ".bmp", ".webp", ".ico",
    ".zip", ".tar", ".gz", ".7z", ".rar",
    ".json", ".xml", ".yaml", ".yml", ".md", ".html", ".css" ]

/-- `Settings.max_upload_size_bytes` (`config.py:45`): 10 MB. -/
def max_upload_size_bytes : Nat := 10 * 1024 * 1024

/-- The characters the sanitizer's regex `[<>:"|?*\x00-\x1f]` replaces
(`file_service.py:84`). -/
def isIllegalChar (c : Char) : Bool :=
  c = '<' || c = '>' || c = ':' || c = '\"' || c = '|' || c = '?' || c = '*'
    || c.toNat ≤ 0x1f

/-- The last path component in pathlib's sense: split on the separators,
drop empty and `"."` components (pathlib's normalization), keep the
last.  `""` when nothing remains (pathlib's `.name` of `"."`, `"/"`,
`""`). -/
def lastComponent (seps : List Char) (s : String) : String :=
  (((s.toList.splitOnP (fun c => c ∈ seps)).map
      (fun l => String.mk l)).filter (fun c => c ≠ "" && c ≠ ".")).getLastD ""

/-- `ntpath.splitdrive`: a `':'` as second character marks a two-character
drive prefix, which `PureWindowsPath(...).name` never includes. -/
def stripDrive (s : String) : String :=
  if s.toList.get? 1 = some ':' then String.mk (s.toList.drop 2) else s

/-- `FileService._sanitize_filename` (`file_service.py:73-90`): POSIX
basename, then Windows basename, then replace illegal characters, then
reject empty, `"."`, `".."`. -/
def _sanitize_filename (filename : String) : Except FileError String :=
  let name1 := lastComponent ['/'] filename
  let name2 := lastComponent ['/', '\\'] (stripDrive name1)
  let name3 := String.mk (name2.toList.map (fun c => if isIllegalChar c then '_' else c))
  if name3 = "" || name3 = "." || name3 = ".." then .error .invalidFilename
  else .ok name3

/-- `pathlib.PurePath.suffix`: the tail from the last `'.'` when that
dot is neither the first nor the last character of the name. -/
def fileSuffix (name : String) : String :=
  let cs := name.toList
  match ((List.range cs.length).filter (fun i => cs.getD i ' ' = '.')).getLast? with
  | some i => if 0 < i && i + 1 < cs.length then String.mk (cs.drop i) else ""
  | none => ""

/-- `str.lower()` character by character (structurally, so that concrete
runs evaluate). -/
def strToLower (s : String) : String :=
  String.mk (s.toList.map Char.toLower)

/-- `FileService._validate_extension` (`file_service.py:92-105`). -/
def _validate_extension (allowed : List String) (filename : String) :
    Except FileError String :=
  let ext := strToLower (fileSuffix filename)
  if ext = "" then .error .missingExtension
  else if ext ∉ allowed then .error .extNotAllowed
  else .ok ext

/-- One signature test of `FileService._validate_content`
(`file_service.py:118-134`), with the `.tar` (offset 257) and `.webp`
(RIFF + "WEBP" at offset 8) special cases. -/
def sigMatches (content : List Nat) (extension : String) (sig : List Nat) : Bool :=
  if extension = ".tar" then
    decide (262 ≤ content.length) && decide ((content.drop 257).take 5 = sig)
  else if extension = ".webp" then
    decide (12 ≤ content.length) && sig.isPrefixOf content
      && decide ((content.drop 8).take 4 = [0x57, 0x45, 0x42, 0x50])
  else sig.isPrefixOf content

/-- `FileService._validate_content` (`file_service.py:107-139`):
text-based extensions skip the check; extensions with known magic bytes
must match one signature; other extensions pass. -/
def _validate_content (content : List Nat) (extension : String) :
    Except FileError Unit :=
  if extension ∈ TEXT_EXTENSIONS then .ok ()
  else
    match (MAGIC_BYTES.find? (fun p => p.1 = extension)).map (fun p => p.2) with
    | none => .ok ()
    | some signatures =>
      if signatures.any (sigMatches content extension) then .ok ()
      else .error .contentMismatch

/-- `FileService._validate_size` (`file_service.py:141-147`). -/
def _validate_size (maxUpload : Nat) (content : List Nat) : Except FileError Unit :=
  if maxUpload < content.length then .error .sizeExceeded else .ok ()

/-- A row of the `attachments` table (`models/attachment.py`). -/
structure Attachment where
  id : String
  todo_id : String
  filename : String
  original_name : String
  mime_type : String
  size_bytes : Nat
deriving Repr, DecidableEq

/-- The two resources `save_attachment` coordinates: the session's
attachment rows and the attachments directory (path ↦ bytes; a write
prepends, and lookups see the most recent write). -/
structure FileState where
  todos : List Todo
  attachments : List Attachment
  files : List (String × List Nat)
deriving Repr, DecidableEq

/-- Observable side effects of `save_attachment`, in order. -/
inductive FsEvent where
  | rowInserted (attId : String)
  | rowFlushed
  | fileWritten (path : String)
  | rowDeleted (attId : String)
deriving Repr, DecidableEq

/-- Result of `save_attachment`: a `FileValidationError`, the
`return None` for a missing todo, success, or the re-raised disk
exception. -/
inductive SaveOutcome where
  | invalid (e : FileError)
  | noSuchTodo
  | saved (a : Attachment)
  | writeFailed
deriving Repr, DecidableEq

/-- `mimetypes.guess_type`, restricted to the extensions this service
can meet (the stdlib table; unlisted extensions guess nothing). -/
def guess_type (name : String) : Option String :=
  match strToLower (fileSuffix name) with
  | ".pdf" => some "application/pdf"
  | ".png" => some "image/png"
  | ".jpg" => some "image/jpeg"
  | ".jpeg" => some "image/jpeg"
  | ".gif" => some "image/gif"
  | ".txt" => some "text/plain"
  | ".csv" => some "text/csv"
  | ".json" => some "application/json"
  | ".zip" => some "application/zip"
  | _ => none

/-- `FileService._get_storage_path` (`file_service.py:69-71`) with the
default `attachments_dir`. -/
def _get_storage_path (filename : String) : String :=
  "data/attachments/" ++ filename

/-- The `mime_type` resolution of `file_service.py:191-194`
(`if not mime_type:` — both `None` and `""` are falsy). -/
def resolvedMime (mime_type : Option String) (safe_name : String) : String :=
  match mime_type with
  | some m => if m = "" then (guess_type safe_name).getD "application/octet-stream" else m
  | none => (guess_type safe_name).getD "application/octet-stream"

/-- The `Attachment(...)` row built at `file_service.py:200-206`:
generated storage filename `uuid4() + validated extension`, sanitized
original name, resolved MIME type, exact byte count. -/
def newAttachment (todo_id safe_name file_ext : String) (mime_type : Option String)
    (newAttId uuidHex : String) (file_content : List Nat) : Attachment :=
  { id := newAttId, todo_id := todo_id, filename := uuidHex ++ file_ext,
    original_name := safe_name, mime_type := resolvedMime mime_type safe_name,
    size_bytes := file_content.length }

/-- `FileService.save_attachment` (`file_service.py:149-225`).
`newAttId` is the uuid the row's primary key defaults to, `uuidHex` the
`uuid.uuid4()` used for the storage filename, and `writeOk` whether
`file_path.write_bytes` succeeds.  Returns the outcome, the resulting
state, and the trace of side effects. -/
def save_attachment (st : FileState) (maxUpload : Nat) (allowed : List String)
    (todo_id : String) (file_content : List Nat) (original_name : String)
    (mime_type : Option String) (newAttId uuidHex : String) (writeOk : Bool) :
    SaveOutcome × FileState × List FsEvent :=
  match _validate_size maxUpload file_content with
  | .error e => (.invalid e, st, [])
  | .ok _ =>
  match _sanitize_filename original_name with
  | .error e => (.invalid e, st, [])
  | .ok safe_name =>
  match _validate_extension allowed safe_name with
  | .error e => (.invalid e, st, [])
  | .ok file_ext =>
  match _validate_content file_content file_ext with
  | .error e => (.invalid e, st, [])
  | .ok _ =>
  if todoExists st.todos todo_id = false then (.noSuchTodo, st, [])
  else if writeOk then
    (.saved (newAttachment todo_id safe_name file_ext mime_type newAttId uuidHex file_content),
     { st with
       attachments := st.attachments
         ++ [newAttachment todo_id safe_name file_ext mime_type newAttId uuidHex file_content],
       files := (_get_storage_path (uuidHex ++ file_ext), file_content) :: st.files },
     [.rowInserted newAttId, .rowFlushed,
      .fileWritten (_get_storage_path (uuidHex ++ file_ext))])
  else
    -- the disk write raised: `db.delete` removes exactly the row added
    -- above, so the attachment rows are the original ones again
    (.writeFailed, st,
     [.rowInserted newAttId, .rowFlushed, .rowDeleted newAttId, .rowFlushed])

/-- `FileService.get_attachment` (`file_service.py:227-240`). -/
def get_attachment (st : FileState) (attachment_id : String) :
    Option (Attachment × List Nat) :=
  match st.attachments.find? (fun a => a.id = attachment_id) with
  | none => none
  | some attachment =>
    match (st.files.find? (fun p => p.1 = _get_storage_path attachment.filename)).map
        (fun p => p.2) with
    | none => none
    | some bytes => some (attachment, bytes)

/-- `AsyncCache` (`services/cache.py:10-47`): a single cached snapshot
with an expiry instant. -/
structure AsyncCache (α : Type) where
  _data : Option α := none
  _expires_at : Option Nat := none
deriving Repr, DecidableEq

/-- `AsyncCache.is_valid` (`cache.py:27-31`). -/
def AsyncCache.is_valid {α : Type} (c : AsyncCache α) (now : Nat) : Bool :=
  match c._data, c._expires_at with
  | some _, some e => decide (now < e)
  | _, _ => false

/-- `AsyncCache.get` (`cache.py:33-37`). -/
def AsyncCache.get {α : Type} (c : AsyncCache α) (now : Nat) : Option α :=
  if c.is_valid now then c._data else none

/-- `AsyncCache.set` (`cache.py:39-42`). -/
def AsyncCache.set {α : Type} (_c : AsyncCache α) (now ttl : Nat) (data : α) :
    AsyncCache α :=
  { _data := some data, _expires_at := some (now + ttl) }

/-- `AsyncCache.invalidate` (`cache.py:44-47`). -/
def AsyncCache.invalidate {α : Type} (_c : AsyncCache α) : AsyncCache α :=
  { _data := none, _expires_at := none }

/-- `AsyncCache.get_or_fetch` (`cache.py:49-75`) for one reader:
`fetched` is what `fetch_func` would return (the lock and double-check
only collapse concurrent misses into this same sequential behaviour). -/
def AsyncCache.get_or_fetch {α : Type} (c : AsyncCache α) (now ttl : Nat)
    (fetched : α) : α × AsyncCache α :=
  match c.get now with
  | some d => (d, c)
  | none => (fetched, c.set now ttl fetched)

/-- A row of the `priority_levels` table (`models/priority.py`). -/
structure PriorityLevel where
  level : Nat
  name : String
  color : Option String
deriving Repr, DecidableEq

/-- `PriorityLevel.get_defaults` (`models/priority.py:49-59`). -/
def PriorityLevel.get_defaults : List PriorityLevel :=
  [ ⟨1, "Lowest", some "#9E9E9E"⟩,
    ⟨2, "Very Low", some "#8BC34A"⟩,
    ⟨3, "Low", some "#4CAF50"⟩,
    ⟨4, "Below Normal", some "#CDDC39"⟩,
    ⟨5, "Normal", some "#FFEB3B"⟩,
    ⟨6, "Above Normal", some "#FFC107"⟩,
    ⟨7, "High", some "#FF9800"⟩,
    ⟨8, "Very High", some "#FF5722"⟩,
    ⟨9, "Critical", some "#F44336"⟩,
    ⟨10, "Urgent", some "#B71C1C"⟩ ]

/-- The priority service's world: the table and the module-level
`priority_cache` (`todo_service.py:504-515`). -/
structure PriorityState where
  dbRows : List PriorityLevel
  cache : AsyncCache (List PriorityLevel)
deriving Repr, DecidableEq

/-- `PriorityService._fetch_all` (`todo_service.py:517-522`): the rows
ordered by level — always straight from storage, never the cache. -/
def PriorityService.fetch_all (rows : List PriorityLevel) : List PriorityLevel :=
  rows.mergeSort (fun a b => a.level ≤ b.level)

/-- `PriorityService.get_all` (`todo_service.py:524-530`): read through
the cache. -/
def PriorityService.get_all (st : PriorityState) (now ttl : Nat) :
    List PriorityLevel × PriorityState :=
  let r := st.cache.get_or_fetch now ttl (PriorityService.fetch_all st.dbRows)
  (r.1, { st with cache := r.2 })

/-- `PriorityService.update` (`todo_service.py:540-561`): fetch the row
directly from storage, apply the given fields, flush, invalidate the
cache; `None` (and no invalidation) when the level does not exist. -/
def PriorityService.update (st : PriorityState) (level : Nat)
    (name color : Option String) : Option PriorityLevel × PriorityState :=
  match st.dbRows.find? (fun p => p.level = level) with
  | none => (none, st)
  | some p =>
    let p' : PriorityLevel :=
      { p with
        name := name.getD p.name,
        color := match color with | some c => some c | none => p.color }
    (some p',
     { dbRows := st.dbRows.map (fun q => if q.level = level then p' else q),
       cache := st.cache.invalidate })

/-- `PriorityService.seed_defaults` (`todo_service.py:563-571`): direct
fetch (not cached); populate the defaults and invalidate only when the
table is empty. -/
def PriorityService.seed_defaults (st : PriorityState) : PriorityState :=
  let existing := PriorityService.fetch_all st.dbRows
  if existing = [] then
    { dbRows := st.dbRows ++ PriorityLevel.get_defaults,
      cache := st.cache.invalidate }
  else st

/-! ## Concrete stores used by witnesses and counterexamples -/

/-- A three-row chain a → b → c (c deepest). -/
def chainDb : List Todo :=
  [{ id := "a" }, { id := "b", parent_id := some "a" },
   { id := "c", parent_id := some "b" }]

/-- A corrupt store: the parent pointers of `x` and `y` already form a
cycle, and `t` is an unrelated root with no children. -/
def cyclicParentsDb : List Todo :=
  [{ id := "x", parent_id := some "y" },
   { id := "y", parent_id := some "x" },
   { id := "t" }]

/-! ## C7: `_get_parent_depth` -/

theorem _get_parent_depth_go_ok (db : List Todo) (f : String → Nat)
    (hf : ∀ a b, parentOf db a = some (some b) → f b < f a) :
    ∀ fuel current depth, f current < fuel →
      ∃ d, _get_parent_depth_go db fuel current depth = .ok d := by
  intro fuel
  induction fuel with
  | zero => intro c d h; omega
  | succ n ih =>
    intro current depth h
    cases hp : parentOf db current with
    | none => exact ⟨depth, by simp [_get_parent_depth_go, hp]⟩
    | some x =>
      cases x with
      | none => exact ⟨depth, by simp [_get_parent_depth_go, hp]⟩
      | some p =>
        have hlt := hf current p hp
        obtain ⟨d, hd⟩ := ih p (depth + 1) (by omega)
        exact ⟨d, by simp [_get_parent_depth_go, hp, hd]⟩

/-- C7.  `computeDepth` walks the parent chain upward counting edges
until a null parent, returning 0 for a root; on data whose parent
pointers do not terminate it fails with the cycle-detected error after
`maxDepth + safetyMargin` iterations instead of looping forever; and
whenever the parent graph admits a rank function bounded by `maxDepth`
(a forest of depth at most `maxDepth`) the error branch is unreachable.
A two-edge chain gives depth 2. -/
theorem c7_compute_depth_claims :
    (∀ db m pid, parentOf db pid = some none → _get_parent_depth db m pid = .ok 0) ∧
    (∀ db m (f : String → Nat) pid,
        (∀ a b, parentOf db a = some (some b) → f b < f a) → f pid ≤ m →
        ∃ d, _get_parent_depth db m pid = .ok d) ∧
    _get_parent_depth chainDb 5 "c" = .ok 2 ∧
    _get_parent_depth cyclicParentsDb 5 "x" = .error .cycleDetected := by
  refine ⟨?_, ?_, by rfl, by rfl⟩
  · intro db m pid h
    have hm : m + 11 = (m + 10) + 1 := rfl
    unfold _get_parent_depth
    rw [hm]
    simp [_get_parent_depth_go, h]
  · intro db m f pid hf hb
    exact _get_parent_depth_go_ok db f hf (m + 11) pid 0 (by omega)

/-! ## C9: the priority cache -/

/-- C9.  A successful write to a priority level invalidates the cache
immediately (both fields cleared), so a read at any later instant—
regardless of the old snapshot's remaining TTL — refetches from
storage; seeding reads and writes storage directly (its effect on the
table is independent of the cache contents) and invalidates the cache
after populating the 10 defaults. -/
theorem c9_priority_cache_write_invalidation :
    (∀ st level n c p st', PriorityService.update st level n c = (some p, st') →
        st'.cache._data = none ∧ st'.cache._expires_at = none) ∧
    (∀ st level n c p st' now ttl,
        PriorityService.update st level n c = (some p, st') →
        (PriorityService.get_all st' now ttl).1 = PriorityService.fetch_all st'.dbRows) ∧
    (∀ rows c1 c2,
        (PriorityService.seed_defaults ⟨rows, c1⟩).dbRows
          = (PriorityService.seed_defaults ⟨rows, c2⟩).dbRows) ∧
    (∀ st, PriorityService.fetch_all st.dbRows = [] →
        (PriorityService.seed_defaults st).dbRows
            = st.dbRows ++ PriorityLevel.get_defaults ∧
        (PriorityService.seed_defaults st).cache._data = none ∧
        (PriorityService.seed_defaults st).cache._expires_at = none) ∧
    PriorityLevel.get_defaults.length = 10 := by
  have hupd : ∀ st level n c p st', PriorityService.update st level n c = (some p, st') →
      st'.cache = AsyncCache.invalidate st.cache := by
    intro st level n c p st' h
    unfold PriorityService.update at h
    cases hf : st.dbRows.find? (fun q => q.level = level) with
    | none => rw [hf] at h; simp at h
    | some q =>
      rw [hf] at h
      simp only [Prod.mk.injEq] at h
      rw [← h.2]
  refine ⟨?_, ?_, ?_, ?_, rfl⟩
  · intro st level n c p st' h
    rw [hupd st level n c p st' h]
    exact ⟨rfl, rfl⟩
  · intro st level n c p st' now ttl h
    have hc := hupd st level n c p st' h
    unfold PriorityService.get_all AsyncCache.get_or_fetch AsyncCache.get AsyncCache.is_valid
    rw [hc]
    simp [AsyncCache.invalidate]
  · intro rows c1 c2
    unfold PriorityService.seed_defaults
    by_cases h : PriorityService.fetch_all rows = [] <;> simp [h]
  · intro st h
    simp [PriorityService.seed_defaults, h, AsyncCache.invalidate]

/-! ## C3: the ingestion pipeline's order and failure behaviour -/

/-- C3.  The pipeline checks size, then filename sanitization, then the
extension allow-list, then the content signature, then owner existence,
in that strict order: the first failing stage determines the reported
error; any validation failure, and a missing owner, stop the call with
the state untouched and no database insert or file write emitted; and a
missing owning todo yields the not-found outcome (`return None`), never
a validation error. -/
theorem c3_pipeline_order (st : FileState) (maxUp : Nat) (allowed : List String)
    (tid : String) (content : List Nat) (name : String) (mime : Option String)
    (aid uuidHex : String) (wOk : Bool) :
    (maxUp < content.length →
      save_attachment st maxUp allowed tid content name mime aid uuidHex wOk
        = (.invalid .sizeExceeded, st, [])) ∧
    (content.length ≤ maxUp →
      _sanitize_filename name = .error .invalidFilename →
      save_attachment st maxUp allowed tid content name mime aid uuidHex wOk
        = (.invalid .invalidFilename, st, [])) ∧
    (∀ safe e, content.length ≤ maxUp →
      _sanitize_filename name = .ok safe →
      _validate_extension allowed safe = .error e →
      save_attachment st maxUp allowed tid content name mime aid uuidHex wOk
        = (.invalid e, st, [])) ∧
    (∀ safe ext, content.length ≤ maxUp →
      _sanitize_filename name = .ok safe →
      _validate_extension allowed safe = .ok ext →
      _validate_content content ext = .error .contentMismatch →
      save_attachment st maxUp allowed tid content name mime aid uuidHex wOk
        = (.invalid .contentMismatch, st, [])) ∧
    (∀ safe ext, content.length ≤ maxUp →
      _sanitize_filename name = .ok safe →
      _validate_extension allowed safe = .ok ext →
      _validate_content content ext = .ok () →
      todoExists st.todos tid = false →
      save_attachment st maxUp allowed tid content name mime aid uuidHex wOk
        = (.noSuchTodo, st, [])) ∧
    (∀ e st2 ev,
      save_attachment st maxUp allowed tid content name mime aid uuidHex wOk
        = (.invalid e, st2, ev) → st2 = st ∧ ev = []) ∧
    (∀ st2 ev,
      save_attachment st maxUp allowed tid content name mime aid uuidHex wOk
        = (.noSuchTodo, st2, ev) → st2 = st ∧ ev = []) := by
  have hsize : content.length ≤ maxUp → _validate_size maxUp content = .ok () := by
    intro h
    unfold _validate_size
    rw [if_neg (by omega)]
  refine ⟨?_, ?_, ?_, ?_, ?_, ?_, ?_⟩
  · intro h
    unfold save_attachment _validate_size
    rw [if_pos h]
  · intro h hs
    unfold save_attachment
    simp only [hsize h, hs]
  · intro safe e h hs he
    unfold save_attachment
    simp only [hsize h, hs, he]
  · intro safe ext h hs he hc
    unfold save_attachment
    simp only [hsize h, hs, he, hc]
  · intro safe ext h hs he hc ht
    unfold save_attachment
    simp only [hsize h, hs, he, hc]
    rw [if_pos ht]
  · intro e st2 ev h
    unfold save_attachment at h
    split at h
    · simp only [Prod.mk.injEq] at h; exact ⟨h.2.1.symm, h.2.2.symm⟩
    split at h
    · simp only [Prod.mk.injEq] at h; exact ⟨h.2.1.symm, h.2.2.symm⟩
    split at h
    · simp only [Prod.mk.injEq] at h; exact ⟨h.2.1.symm, h.2.2.symm⟩
    split at h
    · simp only [Prod.mk.injEq] at h; exact ⟨h.2.1.symm, h.2.2.symm⟩
    split at h
    · simp at h
    · split at h <;> simp at h
  · intro st2 ev h
    unfold save_attachment at h
    split at h
    · simp at h
    split at h
    · simp at h
    split at h
    · simp at h
    split at h
    · simp at h
    split at h
    · simp only [Prod.mk.injEq] at h; exact ⟨h.2.1.symm, h.2.2.symm⟩
    · split at h <;> simp at h

/-! ## C2: the two-phase persist -/

/-- C2.  Once the validation pipeline and the owner check pass, the
attachment row is inserted and flushed before any disk write (the event
trace places `rowInserted` and `rowFlushed` ahead of `fileWritten`);
and when the disk write raises, the just-inserted row is deleted again
and the exception re-raised, leaving both the attachment rows and the
file store exactly as before the call — no row refers to a file that
was never written. -/
theorem c2_two_phase_persist (st : FileState) (maxUp : Nat) (allowed : List String)
    (tid : String) (content : List Nat) (name : String) (mime : Option String)
    (aid uuidHex : String) (safe ext : String)
    (hsize : _validate_size maxUp content = .ok ())
    (hsan : _sanitize_filename name = .ok safe)
    (hext : _validate_extension allowed safe = .ok ext)
    (hcontent : _validate_content content ext = .ok ())
    (howner : todoExists st.todos tid = true) :
    save_attachment st maxUp allowed tid content name mime aid uuidHex false
      = (.writeFailed, st,
         [.rowInserted aid, .rowFlushed, .rowDeleted aid, .rowFlushed]) ∧
    (save_attachment st maxUp allowed tid content name mime aid uuidHex true).2.2
      = [.rowInserted aid, .rowFlushed,
         .fileWritten (_get_storage_path (uuidHex ++ ext))] := by
  constructor
  · unfold save_attachment
    simp only [hsize, hsan, hext, hcontent, howner]
    rfl
  · unfold save_attachment
    simp only [hsize, hsan, hext, hcontent, howner]
    rfl

/-- The store the attachment witnesses run on: one todo `t1`, no rows,
no files. -/
def demoFileState : FileState :=
  { todos := [{ id := "t1" }], attachments := [], files := [] }

/-- The spec's concrete scenario: the 4 bytes `"%PDF"`. -/
def pdfBytes : List Nat := [0x25, 0x50, 0x44, 0x46]

/-- Witness for C2: the hypotheses hold and the conclusion follows for
a concrete `%PDF` upload named `report.pdf` onto `demoFileState`. -/
theorem c2_two_phase_persist_witness :
    (_validate_size max_upload_size_bytes pdfBytes = .ok ()
      ∧ _sanitize_filename "report.pdf" = .ok "report.pdf"
      ∧ _validate_extension allowed_file_extensions "report.pdf" = .ok ".pdf"
      ∧ _validate_content pdfBytes ".pdf" = .ok ()
      ∧ todoExists demoFileState.todos "t1" = true) ∧
    (save_attachment demoFileState max_upload_size_bytes allowed_file_extensions
        "t1" pdfBytes "report.pdf" none "att1" "f00d" false
      = (.writeFailed, demoFileState,
         [.rowInserted "att1", .rowFlushed, .rowDeleted "att1", .rowFlushed]) ∧
     (save_attachment demoFileState max_upload_size_bytes allowed_file_extensions
        "t1" pdfBytes "report.pdf" none "att1" "f00d" true).2.2
      = [.rowInserted "att1", .rowFlushed,
         .fileWritten (_get_storage_path ("f00d" ++ ".pdf"))]) :=
  ⟨⟨by rfl, by rfl, by rfl, by rfl, by rfl⟩,
   c2_two_phase_persist demoFileState max_upload_size_bytes allowed_file_extensions
     "t1" pdfBytes "report.pdf" none "att1" "f00d" "report.pdf" ".pdf"
     (by rfl) (by rfl) (by rfl) (by rfl) (by rfl)⟩

/-! ## C8: the attachment round trip -/

theorem get_attachment_after (st : FileState) (a : Attachment) (content : List Nat)
    (hfresh : ∀ b ∈ st.attachments, b.id ≠ a.id) :
    get_attachment
      { st with attachments := st.attachments ++ [a],
                files := (_get_storage_path a.filename, content) :: st.files } a.id
      = some (a, content) := by
  have hnone : st.attachments.find? (fun b => b.id = a.id) = none := by
    rw [List.find?_eq_none]
    intro b hb
    simp only [decide_eq_true_eq]
    exact hfresh b hb
  have hfind : (st.attachments ++ [a]).find? (fun b => b.id = a.id) = some a := by
    rw [List.find?_append, hnone]
    simp [List.find?]
  unfold get_attachment
  simp only [hfind]
  simp [List.find?_cons]

/-- C8.  For any byte buffer that passes the pipeline (size, sanitize,
allow-listed extension with matching signature) for an existing todo,
a successful save stores an attachment whose recorded `size_bytes` is
the buffer's length, and reading that attachment back returns exactly
the stored bytes, unchanged. -/
theorem c8_attachment_round_trip (st : FileState) (maxUp : Nat)
    (allowed : List String) (tid : String) (content : List Nat) (name : String)
    (mime : Option String) (aid uuidHex : String) (a : Attachment)
    (st' : FileState) (ev : List FsEvent)
    (hsave : save_attachment st maxUp allowed tid content name mime aid uuidHex true
        = (.saved a, st', ev))
    (hfresh : ∀ b ∈ st.attachments, b.id ≠ aid) :
    get_attachment st' aid = some (a, content) ∧ a.size_bytes = content.length := by
  unfold save_attachment at hsave
  split at hsave
  · simp at hsave
  split at hsave
  · simp at hsave
  split at hsave
  · simp at hsave
  split at hsave
  · simp at hsave
  split at hsave
  · simp at hsave
  split at hsave
  · simp only [Prod.mk.injEq, SaveOutcome.saved.injEq] at hsave
    obtain ⟨ha, hst, -⟩ := hsave
    subst hst
    rw [← ha]
    exact ⟨get_attachment_after st _ content (fun b hb => hfresh b hb), rfl⟩
  · simp at hsave

/-- The attachment stored by the witness upload. -/
def demoSavedAttachment : Attachment :=
  newAttachment "t1" "report.pdf" ".pdf" none "att1" "f00d" pdfBytes

/-- The state after the witness upload. -/
def demoSavedState : FileState :=
  { todos := [{ id := "t1" }],
    attachments := [demoSavedAttachment],
    files := [(_get_storage_path "f00d.pdf", pdfBytes)] }

/-- Witness for C8: uploading the 4 bytes `"%PDF"` as `report.pdf`
succeeds, and downloading returns those same 4 bytes with
`size_bytes = 4`. -/
theorem c8_attachment_round_trip_witness :
    save_attachment demoFileState max_upload_size_bytes allowed_file_extensions
        "t1" pdfBytes "report.pdf" none "att1" "f00d" true
      = (.saved demoSavedAttachment, demoSavedState,
         [.rowInserted "att1", .rowFlushed,
          .fileWritten (_get_storage_path "f00d.pdf")]) ∧
    get_attachment demoSavedState "att1" = some (demoSavedAttachment, pdfBytes) ∧
    demoSavedAttachment.size_bytes = pdfBytes.length :=
  have hsave : save_attachment demoFileState max_upload_size_bytes
      allowed_file_extensions "t1" pdfBytes "report.pdf" none "att1" "f00d" true
      = (.saved demoSavedAttachment, demoSavedState,
         [.rowInserted "att1", .rowFlushed,
          .fileWritten (_get_storage_path "f00d.pdf")]) := by rfl
  ⟨hsave,
   c8_attachment_round_trip demoFileState max_upload_size_bytes
     allowed_file_extensions "t1" pdfBytes "report.pdf" none "att1" "f00d"
     demoSavedAttachment demoSavedState
     [.rowInserted "att1", .rowFlushed, .fileWritten (_get_storage_path "f00d.pdf")]
     hsave (fun b hb => absurd hb (List.not_mem_nil b))⟩

/-! ## Field-application and dump lemmas -/

theorem setField_completed (t : Todo) (k : String) (v : FieldVal) :
    (setField t k v).completed = t.completed := by
  unfold setField
  split_ifs <;> cases v <;> rfl

theorem setField_completed_at (t : Todo) (k : String) (v : FieldVal) :
    (setField t k v).completed_at = t.completed_at := by
  unfold setField
  split_ifs <;> cases v <;> rfl

theorem setField_id (t : Todo) (k : String) (v : FieldVal) :
    (setField t k v).id = t.id := by
  unfold setField
  split_ifs <;> cases v <;> rfl

theorem setField_parent_id (t : Todo) (k : String) (v : FieldVal)
    (hk : k ≠ "parent_id") : (setField t k v).parent_id = t.parent_id := by
  unfold setField
  split_ifs <;> (try (cases v <;> rfl)) <;> simp_all

theorem applyFields_completed (ud : List (String × FieldVal)) :
    ∀ t, (applyFields t ud).completed = t.completed
      ∧ (applyFields t ud).completed_at = t.completed_at
      ∧ (applyFields t ud).id = t.id := by
  induction ud with
  | nil => intro t; exact ⟨rfl, rfl, rfl⟩
  | cons p rest ih =>
    intro t
    unfold applyFields at ih ⊢
    simp only [List.foldl_cons]
    refine ⟨?_, ?_, ?_⟩ <;>
      by_cases hc : p.1 = "tag_ids" ∨ p.1 = "completed"
    · rw [if_pos hc, (ih t).1]
    · rw [if_neg hc, (ih (setField t p.1 p.2)).1, setField_completed]
    · rw [if_pos hc, (ih t).2.1]
    · rw [if_neg hc, (ih (setField t p.1 p.2)).2.1, setField_completed_at]
    · rw [if_pos hc, (ih t).2.2]
    · rw [if_neg hc, (ih (setField t p.1 p.2)).2.2, setField_id]

theorem applyFields_parent_id (ud : List (String × FieldVal))
    (hud : ∀ p ∈ ud, p.1 ≠ "parent_id") :
    ∀ t, (applyFields t ud).parent_id = t.parent_id := by
  induction ud with
  | nil => intro t; rfl
  | cons p rest ih =>
    intro t
    have hp := hud p (List.mem_cons_self p rest)
    have hrest : ∀ q ∈ rest, q.1 ≠ "parent_id" :=
      fun q hq => hud q (List.mem_cons_of_mem p hq)
    unfold applyFields at ih ⊢
    simp only [List.foldl_cons]
    by_cases hc : p.1 = "tag_ids" ∨ p.1 = "completed"
    · rw [if_pos hc, ih hrest t]
    · rw [if_neg hc, ih hrest (setField t p.1 p.2), setField_parent_id t p.1 p.2 hp]

theorem mem_dumpEntry {β : Type} {p : String × FieldVal} {k : String}
    {mk : β → FieldVal} {o : Option β} (h : p ∈ dumpEntry k mk o) : p.1 = k := by
  cases o with
  | none => simp [dumpEntry] at h
  | some v =>
    simp only [dumpEntry, List.mem_singleton] at h
    rw [h]

theorem model_dump_keys (u : TodoUpdate) :
    ∀ p ∈ u.model_dump,
      p.1 = "title" ∨ p.1 = "description" ∨ p.1 = "due_date" ∨ p.1 = "priority"
        ∨ p.1 = "category_id" ∨ p.1 = "tag_ids" ∨ p.1 = "completed" := by
  intro p hp
  unfold TodoUpdate.model_dump at hp
  simp only [List.mem_append] at hp
  rcases hp with ((((((h | h) | h) | h) | h) | h) | h)
  · exact Or.inl (mem_dumpEntry h)
  · exact Or.inr (Or.inl (mem_dumpEntry h))
  · exact Or.inr (Or.inr (Or.inl (mem_dumpEntry h)))
  · exact Or.inr (Or.inr (Or.inr (Or.inl (mem_dumpEntry h))))
  · exact Or.inr (Or.inr (Or.inr (Or.inr (Or.inl (mem_dumpEntry h)))))
  · exact Or.inr (Or.inr (Or.inr (Or.inr (Or.inr (Or.inl (mem_dumpEntry h))))))
  · exact Or.inr (Or.inr (Or.inr (Or.inr (Or.inr (Or.inr (mem_dumpEntry h))))))

theorem model_dump_no_parent_id (u : TodoUpdate) :
    ∀ p ∈ u.model_dump, p.1 ≠ "parent_id" := by
  intro p hp
  rcases model_dump_keys u p hp with h | h | h | h | h | h | h <;> rw [h] <;> decide

theorem lookupField_dump_parent_id (u : TodoUpdate) :
    lookupField u.model_dump "parent_id" = none := by
  unfold lookupField
  have hnone : u.model_dump.find? (fun p => p.1 = "parent_id") = none := by
    rw [List.find?_eq_none]
    intro p hp
    simp only [decide_eq_true_eq]
    exact model_dump_no_parent_id u p hp
  rw [hnone]
  rfl

theorem find?_dumpEntry_ne {β : Type} (k k' : String) (hne : k ≠ k')
    (mk : β → FieldVal) (o : Option β) :
    (dumpEntry k mk o).find? (fun p => p.1 = k') = none := by
  cases o with
  | none => rfl
  | some v => simp [dumpEntry, List.find?, hne]

theorem lookupField_dump_completed (u : TodoUpdate) :
    lookupField u.model_dump "completed" = u.completed.map FieldVal.vBool := by
  unfold lookupField TodoUpdate.model_dump
  rw [List.find?_append, List.find?_append, List.find?_append, List.find?_append,
      List.find?_append, List.find?_append,
      find?_dumpEntry_ne "title" "completed" (by decide) FieldVal.vStr u.title,
      find?_dumpEntry_ne "description" "completed" (by decide) FieldVal.vStr u.description,
      find?_dumpEntry_ne "due_date" "completed" (by decide) FieldVal.vNat u.due_date,
      find?_dumpEntry_ne "priority" "completed" (by decide) FieldVal.vNat u.priority,
      find?_dumpEntry_ne "category_id" "completed" (by decide) FieldVal.vStr u.category_id,
      find?_dumpEntry_ne "tag_ids" "completed" (by decide) FieldVal.vList u.tag_ids]
  cases u.completed <;> simp [dumpEntry, List.find?]

/-! ## `replaceTodo` lemmas -/

theorem mem_replaceTodo {db : List Todo} {i : String} {t x : Todo}
    (hx : x ∈ replaceTodo db i t) : x = t ∨ x ∈ db := by
  induction db with
  | nil => cases hx
  | cons u rest ih =>
    unfold replaceTodo at hx
    by_cases hu : u.id = i
    · rw [if_pos hu] at hx
      rcases List.mem_cons.mp hx with h | h
      · exact Or.inl h
      · exact Or.inr (List.mem_cons_of_mem u h)
    · rw [if_neg hu] at hx
      rcases List.mem_cons.mp hx with h | h
      · exact Or.inr (h ▸ List.mem_cons_self u rest)
      · rcases ih h with h2 | h2
        · exact Or.inl h2
        · exact Or.inr (List.mem_cons_of_mem u h2)

theorem findTodo_replaceTodo (db : List Todo) (i : String) (t : Todo)
    (hid : t.id = i) (hex : todoExists db i = true) :
    findTodo (replaceTodo db i t) i = some t := by
  induction db with
  | nil => simp [todoExists, findTodo] at hex
  | cons u rest ih =>
    unfold replaceTodo
    by_cases hu : u.id = i
    · rw [if_pos hu]
      unfold findTodo
      simp [List.find?, hid]
    · rw [if_neg hu]
      unfold findTodo
      simp only [List.find?_cons]
      have hdu : (decide (u.id = i)) = false := by simp [hu]
      rw [hdu]
      have hex2 : todoExists rest i = true := by
        unfold todoExists findTodo at hex ⊢
        rw [List.find?_cons, hdu] at hex
        exact hex
      exact ih hex2

/-! ## C4: the completion invariant -/

/-- The data-model invariant of spec §3: the completion timestamp is
set iff the completion flag is. -/
def CompletionInv (t : Todo) : Prop := t.completed = true ↔ t.completed_at ≠ none

theorem applyCompleted_inv (todo : Todo) (ud : List (String × FieldVal)) (now : Nat)
    (h : CompletionInv todo) : CompletionInv (applyCompleted todo ud now) := by
  unfold applyCompleted
  split
  · rename_i c heq
    by_cases hc : c.getD false = true
    · rw [if_pos hc]
      unfold CompletionInv
      simp [Todo.mark_complete]
    · rw [if_neg hc]
      unfold CompletionInv
      simp [Todo.mark_incomplete]
  · exact h

theorem applyCompleted_id (todo : Todo) (ud : List (String × FieldVal)) (now : Nat) :
    (applyCompleted todo ud now).id = todo.id := by
  unfold applyCompleted
  split
  · split <;> rfl
  · rfl

theorem update_data_preserves_inv (db : List Todo) (tagDb : List Tag) (m : Nat)
    (tid : String) (ud : List (String × FieldVal)) (now : Nat) (db' : List Todo)
    (h : TodoService.update_data db tagDb m tid ud now = .ok (some db'))
    (hdb : ∀ t ∈ db, CompletionInv t) : ∀ t ∈ db', CompletionInv t := by
  unfold TodoService.update_data at h
  cases hfind : findTodo db tid with
  | none => rw [hfind] at h; simp at h
  | some todo =>
    rw [hfind] at h
    simp only [] at h
    cases hpc : updateParentCheck db m tid todo.parent_id ud with
    | error e => rw [hpc] at h; simp at h
    | ok u0 =>
      rw [hpc] at h
      cases htc : updateTagsCheck tagDb ud with
      | error e => rw [htc] at h; simp at h
      | ok tags =>
        rw [htc] at h
        simp only [Except.ok.injEq, Option.some.injEq] at h
        subst h
        intro t ht
        rcases mem_replaceTodo ht with h2 | h2
        · subst h2
          have htodo : CompletionInv todo :=
            hdb todo (List.mem_of_find?_eq_some hfind)
          have hai := applyCompleted_inv todo ud now htodo
          unfold CompletionInv at hai ⊢
          rw [show (updatedTodo todo ud now).completed
                = (applyFields (applyCompleted todo ud now) ud).completed from rfl,
              show (updatedTodo todo ud now).completed_at
                = (applyFields (applyCompleted todo ud now) ud).completed_at from rfl,
              (applyFields_completed ud _).1, (applyFields_completed ud _).2.1]
          exact hai
        · exact hdb t h2

/-- C4.  After any of the service operations — create, update (which
routes a `completed` patch through the mark methods), mark-complete —
every stored todo satisfies `completed == true ↔ completed_at ≠ null`;
`Todo.mark_complete` always stamps the current time (so marking an
already-complete todo complete again refreshes the timestamp rather
than short-circuiting — also through `update`, which never compares
the current state first), and `Todo.mark_incomplete` clears it. -/
theorem c4_completion_invariant :
    (∀ db tagDb m data newId now db',
        TodoService.create db tagDb m data newId now = .ok db' →
        (∀ t ∈ db, CompletionInv t) → ∀ t ∈ db', CompletionInv t) ∧
    (∀ db tagDb m tid u now db',
        TodoService.update db tagDb m tid u now = .ok (some db') →
        (∀ t ∈ db, CompletionInv t) → ∀ t ∈ db', CompletionInv t) ∧
    (∀ db tid now db',
        TodoService.mark_complete db tid now = some db' →
        (∀ t ∈ db, CompletionInv t) → ∀ t ∈ db', CompletionInv t) ∧
    (∀ t now, (Todo.mark_complete t now).completed = true
        ∧ (Todo.mark_complete t now).completed_at = some now) ∧
    (∀ t, (Todo.mark_incomplete t).completed = false
        ∧ (Todo.mark_incomplete t).completed_at = none) ∧
    (∀ db tagDb m tid (u : TodoUpdate) now db',
        u.completed = some (some true) →
        TodoService.update db tagDb m tid u now = .ok (some db') →
        ∃ t', findTodo db' tid = some t' ∧ t'.completed = true
          ∧ t'.completed_at = some now) := by
  refine ⟨?_, ?_, ?_, fun t now => ⟨rfl, rfl⟩, fun t => ⟨rfl, rfl⟩, ?_⟩
  · intro db tagDb m data newId now db' h hdb
    unfold TodoService.create at h
    split at h
    · simp at h
    split at h
    · simp at h
    simp only [Except.ok.injEq] at h
    subst h
    intro t ht
    rcases List.mem_append.mp ht with h2 | h2
    · exact hdb t h2
    · rw [List.mem_singleton] at h2
      subst h2
      unfold CompletionInv
      simp
  · intro db tagDb m tid u now db' h hdb
    exact update_data_preserves_inv db tagDb m tid u.model_dump now db' h hdb
  · intro db tid now db' h hdb
    unfold TodoService.mark_complete at h
    cases hfind : findTodo db tid with
    | none => rw [hfind] at h; simp at h
    | some todo =>
      rw [hfind] at h
      simp only [Option.some.injEq] at h
      subst h
      intro t ht
      rcases mem_replaceTodo ht with h2 | h2
      · subst h2
        unfold CompletionInv
        simp [Todo.mark_complete]
      · exact hdb t h2
  · intro db tagDb m tid u now db' hcset h
    unfold TodoService.update TodoService.update_data at h
    cases hfind : findTodo db tid with
    | none => rw [hfind] at h; simp at h
    | some todo =>
      rw [hfind] at h
      simp only [] at h
      cases hpc : updateParentCheck db m tid todo.parent_id u.model_dump with
      | error e => rw [hpc] at h; simp at h
      | ok u0 =>
        rw [hpc] at h
        cases htc : updateTagsCheck tagDb u.model_dump with
        | error e => rw [htc] at h; simp at h
        | ok tags =>
          rw [htc] at h
          simp only [Except.ok.injEq, Option.some.injEq] at h
          subst h
          have hid : (updatedTodo todo u.model_dump now).id = tid := by
            rw [show (updatedTodo todo u.model_dump now).id
                  = (applyFields (applyCompleted todo u.model_dump now) u.model_dump).id
                from rfl,
                (applyFields_completed u.model_dump _).2.2, applyCompleted_id]
            have hpred := List.find?_some hfind
            simpa using hpred
          have hex : todoExists db tid = true := by
            unfold todoExists
            rw [hfind]
            rfl
          have hac : applyCompleted todo u.model_dump now = Todo.mark_complete todo now := by
            unfold applyCompleted
            rw [lookupField_dump_completed, hcset]
            rfl
          refine ⟨updatedTodo todo u.model_dump now,
                  findTodo_replaceTodo db tid _ hid hex, ?_, ?_⟩
          · rw [show (updatedTodo todo u.model_dump now).completed
                  = (applyFields (applyCompleted todo u.model_dump now) u.model_dump).completed
                from rfl,
                (applyFields_completed u.model_dump _).1, hac]
            rfl
          · rw [show (updatedTodo todo u.model_dump now).completed_at
                  = (applyFields (applyCompleted todo u.model_dump now) u.model_dump).completed_at
                from rfl,
                (applyFields_completed u.model_dump _).2.1, hac]
            rfl

/-! ## C1: updates cannot touch the parent pointer -/

theorem applyCompleted_parent_id (todo : Todo) (ud : List (String × FieldVal))
    (now : Nat) : (applyCompleted todo ud now).parent_id = todo.parent_id := by
  unfold applyCompleted
  split
  · split <;> rfl
  · rfl

theorem updatedTodo_dump_parent_id (todo : Todo) (u : TodoUpdate) (now : Nat) :
    (updatedTodo todo u.model_dump now).parent_id = todo.parent_id := by
  rw [show (updatedTodo todo u.model_dump now).parent_id
        = (applyFields (applyCompleted todo u.model_dump now) u.model_dump).parent_id
      from rfl,
      applyFields_parent_id u.model_dump (model_dump_no_parent_id u) _,
      applyCompleted_parent_id]

theorem updatedTodo_dump_id (todo : Todo) (u : TodoUpdate) (now : Nat) :
    (updatedTodo todo u.model_dump now).id = todo.id := by
  rw [show (updatedTodo todo u.model_dump now).id
        = (applyFields (applyCompleted todo u.model_dump now) u.model_dump).id
      from rfl,
      (applyFields_completed u.model_dump _).2.2, applyCompleted_id]

theorem updateParentCheck_dump (db : List Todo) (m : Nat) (tid : String)
    (cur : Option String) (u : TodoUpdate) :
    updateParentCheck db m tid cur u.model_dump = .ok () := by
  unfold updateParentCheck
  rw [lookupField_dump_parent_id]

theorem _validate_and_get_tags_error (tagDb : List Tag) (tids : List String)
    (e : TodoError) (h : _validate_and_get_tags tagDb tids = .error e) :
    e = .tagsNotFound := by
  unfold _validate_and_get_tags at h
  split at h
  · simp at h
  · split at h
    · simp at h
    · injection h with h2
      exact h2.symm

theorem updateTagsCheck_error (tagDb : List Tag) (ud : List (String × FieldVal))
    (e : TodoError) (h : updateTagsCheck tagDb ud = .error e) : e = .tagsNotFound := by
  unfold updateTagsCheck at h
  split at h
  · rename_i tids heq
    cases hv : _validate_and_get_tags tagDb tids with
    | error e2 =>
      rw [hv] at h
      simp only [Except.map] at h
      injection h with h2
      exact h2 ▸ _validate_and_get_tags_error tagDb tids e2 hv
    | ok tags =>
      rw [hv] at h
      simp [Except.map] at h
  · simp at h

theorem map_pair_replaceTodo (db : List Todo) (i : String) (t : Todo)
    (h : ∀ u, findTodo db i = some u → t.id = u.id ∧ t.parent_id = u.parent_id) :
    (replaceTodo db i t).map (fun x => (x.id, x.parent_id))
      = db.map (fun x => (x.id, x.parent_id)) := by
  induction db with
  | nil => rfl
  | cons u rest ih =>
    unfold replaceTodo
    by_cases hu : u.id = i
    · rw [if_pos hu]
      have hq := h u (by unfold findTodo; simp [List.find?, hu])
      simp [List.map_cons, hq.1, hq.2]
    · rw [if_neg hu]
      simp only [List.map_cons]
      have hrest : ∀ v, findTodo rest i = some v → t.id = v.id ∧ t.parent_id = v.parent_id := by
        intro v hv
        refine h v ?_
        unfold findTodo at hv ⊢
        rw [List.find?_cons]
        have hdu : (decide (u.id = i)) = false := by simp [hu]
        rw [hdu]
        exact hv
      rw [ih hrest]

/-- C1 (evidence of the code bug).  `TodoUpdate` declares no `parent_id`
field, so no `model_dump(exclude_unset=True)` ever carries a
`"parent_id"` key; consequently `TodoService.update` never runs the
parent-assignment validation (it can never fail with the circular
reference error) and never changes any todo's parent pointer — the
update that the repository's own tests expect to raise a cycle
`ValidationError` (patching todo `a` with `parent_id = "a"`) instead
succeeds and leaves the parent untouched. -/
theorem c1_update_never_touches_parent :
    (∀ u : TodoUpdate, lookupField u.model_dump "parent_id" = none) ∧
    (∀ db tagDb m tid (u : TodoUpdate) now db',
        TodoService.update db tagDb m tid u now = .ok (some db') →
        db'.map (fun t => (t.id, t.parent_id)) = db.map (fun t => (t.id, t.parent_id))) ∧
    (∀ db tagDb m tid (u : TodoUpdate) now,
        TodoService.update db tagDb m tid u now ≠ .error .circularReference) ∧
    TodoService.update [{ id := "a" }] [] 5 "a" ({} : TodoUpdate) 7
      = .ok (some [{ id := "a", updated_at := 7 }]) := by
  refine ⟨lookupField_dump_parent_id, ?_, ?_, by rfl⟩
  · intro db tagDb m tid u now db' h
    unfold TodoService.update TodoService.update_data at h
    cases hfind : findTodo db tid with
    | none => rw [hfind] at h; simp at h
    | some todo =>
      rw [hfind] at h
      simp only [] at h
      rw [updateParentCheck_dump] at h
      cases htc : updateTagsCheck tagDb u.model_dump with
      | error e => rw [htc] at h; simp at h
      | ok tags =>
        rw [htc] at h
        simp only [Except.ok.injEq, Option.some.injEq] at h
        subst h
        refine map_pair_replaceTodo db tid _ ?_
        intro v hv
        rw [hfind] at hv
        injection hv with hv2
        subst hv2
        exact ⟨updatedTodo_dump_id _ u now, updatedTodo_dump_parent_id _ u now⟩
  · intro db tagDb m tid u now hcontra
    unfold TodoService.update TodoService.update_data at hcontra
    cases hfind : findTodo db tid with
    | none => rw [hfind] at hcontra; simp at hcontra
    | some todo =>
      rw [hfind] at hcontra
      simp only [] at hcontra
      rw [updateParentCheck_dump] at hcontra
      cases htc : updateTagsCheck tagDb u.model_dump with
      | error e =>
        rw [htc] at hcontra
        injection hcontra with h2
        have := updateTagsCheck_error tagDb u.model_dump e htc
        rw [this] at h2
        cases h2
      | ok tags => rw [htc] at hcontra; simp at hcontra

/-! ## C5: `_validate_parent` -/

theorem _get_parent_depth_go_error (db : List Todo) :
    ∀ fuel c d e, _get_parent_depth_go db fuel c d = .error e → e = .cycleDetected := by
  intro fuel
  induction fuel with
  | zero =>
    intro c d e h
    injection h with h2
    exact h2.symm
  | succ n ih =>
    intro c d e h
    unfold _get_parent_depth_go at h
    cases hp : parentOf db c with
    | none => rw [hp] at h; simp at h
    | some x =>
      cases x with
      | none => rw [hp] at h; simp at h
      | some p =>
        rw [hp] at h
        exact ih p (d + 1) e h

theorem _get_parent_depth_error (db : List Todo) (m : Nat) (pid : String)
    (e : TodoError) (h : _get_parent_depth db m pid = .error e) :
    e = .cycleDetected :=
  _get_parent_depth_go_error db (m + 11) pid 0 e h

/-- C5.  `validateParentAssignment` is a no-op for a null parent; a
missing proposed parent fails with parent-not-found; the circular
check runs only when a `todoId` is given (with `todoId=None` the
circular-reference error is impossible); the new depth is
`computeDepth(parent) + 1` and the depth error is raised exactly when
that exceeds `maxDepth`; and a `create` or `add_subtask` whose parent
validation fails propagates that error with no todo added to the
store. -/
theorem c5_validate_parent_assignment :
    (∀ db m tid, _validate_parent db m none tid = .ok ()) ∧
    (∀ db m pid tid, todoExists db pid = false →
        _validate_parent db m (some pid) tid = .error .parentNotFound) ∧
    (∀ db m pid, _validate_parent db m (some pid) none ≠ .error .circularReference) ∧
    (∀ db m pid d, todoExists db pid = true →
        _get_parent_depth db m pid = .ok d →
        (_validate_parent db m (some pid) none = .error .depthExceeded ↔ m < d + 1)) ∧
    (∀ db m pid tid d, todoExists db pid = true →
        _would_create_cycle db tid pid = false →
        _get_parent_depth db m pid = .ok d →
        (_validate_parent db m (some pid) (some tid) = .error .depthExceeded ↔ m < d + 1)) ∧
    (∀ db tagDb m data newId now e,
        _validate_parent db m data.parent_id none = .error e →
        TodoService.create db tagDb m data newId now = .error e) ∧
    (∀ db tagDb m pid (data : TodoCreate) newId now e,
        todoExists db pid = true →
        _validate_parent db m (some pid) none = .error e →
        TodoService.add_subtask db tagDb m pid data newId now = .error e) := by
  refine ⟨fun db m tid => rfl, ?_, ?_, ?_, ?_, ?_, ?_⟩
  · intro db m pid tid h
    unfold _validate_parent
    simp only []
    rw [if_pos h]
  · intro db m pid hcontra
    unfold _validate_parent at hcontra
    simp only [] at hcontra
    by_cases hex : todoExists db pid = false
    · rw [if_pos hex] at hcontra
      cases hcontra
    · rw [if_neg hex] at hcontra
      simp only [Bool.false_eq_true, if_false] at hcontra
      cases hd : _get_parent_depth db m pid with
      | error e =>
        rw [hd] at hcontra
        injection hcontra with h2
        have := _get_parent_depth_error db m pid e hd
        rw [this] at h2
        cases h2
      | ok d =>
        rw [hd] at hcontra
        simp only [] at hcontra
        by_cases hm : m < d + 1
        · rw [if_pos hm] at hcontra; cases hcontra
        · rw [if_neg hm] at hcontra; cases hcontra
  · intro db m pid d hex hd
    unfold _validate_parent
    simp only []
    rw [if_neg (by rw [hex]; simp)]
    simp only [Bool.false_eq_true, if_false, hd]
    by_cases hm : m < d + 1
    · rw [if_pos hm]; simp [hm]
    · rw [if_neg hm]; simp [hm]
  · intro db m pid tid d hex hcyc hd
    unfold _validate_parent
    simp only []
    rw [if_neg (by rw [hex]; simp)]
    simp only [hcyc, Bool.false_eq_true, if_false, hd]
    by_cases hm : m < d + 1
    · rw [if_pos hm]; simp [hm]
    · rw [if_neg hm]; simp [hm]
  · intro db tagDb m data newId now e h
    unfold TodoService.create
    simp only [h]
  · intro db tagDb m pid data newId now e hex h
    unfold TodoService.add_subtask
    rw [if_neg (by rw [hex]; simp)]
    unfold TodoService.create
    simp only [h]
    rfl

/-! ## C10: totality of the upward walk -/

theorem upward_walk_eq (db : List Todo) (visited : List String) (current : String) :
    upward_walk db visited current =
      if current ∈ visited then true
      else
        match parentOf db current with
        | none => false
        | some none => false
        | some (some p) => upward_walk db (current :: visited) p := by
  rw [upward_walk]
  by_cases hv : current ∈ visited
  · rw [if_pos hv, if_pos hv]
  · rw [if_neg hv, if_neg hv]
    cases hp : parentOf db current with
    | none => simp [hp]
    | some x =>
      cases x with
      | none => simp [hp]
      | some p => simp [hp]

/-- The same upward loop with an explicit iteration budget: `none` means
the budget ran out before the loop finished. -/
def upward_walk_fuel (db : List Todo) : Nat → List String → String → Option Bool
  | 0, _, _ => none
  | fuel + 1, visited, current =>
    if current ∈ visited then some true
    else
      match parentOf db current with
      | none => some false
      | some none => some false
      | some (some p) => upward_walk_fuel db fuel (current :: visited) p

theorem upward_walk_fuel_agrees (db : List Todo) :
    ∀ fuel visited current, (dbIds db \ visited.toFinset).card < fuel →
      upward_walk_fuel db fuel visited current
        = some (upward_walk db visited current) := by
  intro fuel
  induction fuel with
  | zero => intro v c h; omega
  | succ n ih =>
    intro v c h
    rw [upward_walk_eq]
    unfold upward_walk_fuel
    by_cases hv : c ∈ v
    · rw [if_pos hv, if_pos hv]
    · rw [if_neg hv, if_neg hv]
      cases hp : parentOf db c with
      | none => rfl
      | some x =>
        cases x with
        | none => rfl
        | some p =>
          apply ih
          have hc : c ∈ dbIds db \ v.toFinset := by
            rw [Finset.mem_sdiff, List.mem_toFinset]
            exact ⟨mem_dbIds_of_parentOf hp, hv⟩
          rw [List.toFinset_cons, Finset.sdiff_insert]
          have hcard := Finset.card_erase_of_mem hc
          have hpos := Finset.card_pos.mpr ⟨c, hc⟩
          omega

theorem upward_walk_cyclic_demo : upward_walk cyclicParentsDb ["t"] "x" = true := by
  have hcard : (dbIds cyclicParentsDb \ (["t"] : List String).toFinset).card < 4 := by
    have : (dbIds cyclicParentsDb \ (["t"] : List String).toFinset).card
        ≤ (dbIds cyclicParentsDb).card := Finset.card_le_card (Finset.sdiff_subset)
    have h2 : (dbIds cyclicParentsDb).card ≤ 3 := by
      unfold dbIds cyclicParentsDb
      exact le_trans (List.toFinset_card_le _) (by simp)
    omega
  have h := upward_walk_fuel_agrees cyclicParentsDb 4 ["t"] "x" hcard
  have h2 : upward_walk_fuel cyclicParentsDb 4 ["t"] "x" = some true := by rfl
  rw [h2] at h
  injection h with h3
  exact h3.symm

/-- C10.  The upward walk inside `_would_create_cycle` adds each
visited id to the set before following its parent pointer and stops —
returning true — as soon as any id repeats, so on every finite store,
corrupt cyclic parent data included, the loop halts: running it with
any budget larger than the number of distinct unvisited ids gives the
(total) function's answer, and on the concrete cyclic store it
terminates with `true`. -/
theorem c10_upward_walk_total :
    (∀ db visited current, current ∈ visited →
        upward_walk db visited current = true) ∧
    (∀ db visited current,
        upward_walk_fuel db ((dbIds db \ visited.toFinset).card + 1) visited current
          = some (upward_walk db visited current)) ∧
    upward_walk cyclicParentsDb ["t"] "x" = true := by
  refine ⟨?_, ?_, upward_walk_cyclic_demo⟩
  · intro db v c hv
    rw [upward_walk_eq, if_pos hv]
  · intro db v c
    exact upward_walk_fuel_agrees db _ v c (by omega)

/-! ## C6: `_would_create_cycle` against its graph-level description -/

/-- One upward step of the stored parent graph: `b` is the non-null
parent recorded for `a`. -/
def parentStep (db : List Todo) (a b : String) : Prop :=
  parentOf db a = some (some b)

/-- "Walking up the parent pointers from `a` ever reaches `b`". -/
def reachesUp (db : List Todo) (a b : String) : Prop :=
  Relation.ReflTransGen (parentStep db) a b

theorem desc_cyclic_demo : _get_all_descendant_ids cyclicParentsDb "t" = [] := by
  unfold _get_all_descendant_ids
  have h1 : add_children cyclicParentsDb "t" ([], []) = ([], []) := by rfl
  rw [_get_all_descendant_ids_go, h1]
  rw [_get_all_descendant_ids_go]

theorem not_reachesUp_demo : ¬ reachesUp cyclicParentsDb "x" "t" := by
  intro h
  have hinv : ∀ z, reachesUp cyclicParentsDb "x" z → z = "x" ∨ z = "y" := by
    intro z hz
    induction hz with
    | refl => exact Or.inl rfl
    | tail _ h2 ih =>
      rename_i b c _
      rcases ih with hb | hb
      · subst hb
        have hx : parentOf cyclicParentsDb "x" = some (some "y") := by rfl
        unfold parentStep at h2
        rw [hx] at h2
        injection h2 with h3
        injection h3 with h4
        exact Or.inr h4.symm
      · subst hb
        have hy : parentOf cyclicParentsDb "y" = some (some "x") := by rfl
        unfold parentStep at h2
        rw [hy] at h2
        injection h2 with h3
        injection h3 with h4
        exact Or.inl h4.symm
  rcases hinv "t" h with h2 | h2 <;> exact absurd h2 (by decide)

/-- Counterexample to C6 as stated: on a store whose parent pointers
already contain the cycle x ⇄ y and an unrelated childless root `t`,
`_would_create_cycle t x` returns `true` (the walk's visited-set check
fires inside the pre-existing cycle), yet `x` is not `t`, the upward
walk from `x` never reaches `t`, and `x` is not among `t`'s
descendants. -/
theorem c6_counterexample :
    ¬ (_would_create_cycle cyclicParentsDb "t" "x" = true ↔
        ("x" = "t" ∨ reachesUp cyclicParentsDb "x" "t"
          ∨ "x" ∈ _get_all_descendant_ids cyclicParentsDb "t")) := by
  intro hiff
  have hcode : _would_create_cycle cyclicParentsDb "t" "x" = true := by
    unfold _would_create_cycle
    rw [if_neg (by decide), if_pos upward_walk_cyclic_demo]
  rcases hiff.mp hcode with h | h | h
  · exact absurd h (by decide)
  · exact not_reachesUp_demo h
  · rw [desc_cyclic_demo] at h
    cases h

theorem upward_walk_true_iff (db : List Todo) (f : String → Nat)
    (hf : ∀ a b, parentStep db a b → f b < f a) (t : String) :
    ∀ n current visited, f current ≤ n → t ∈ visited →
      (∀ v ∈ visited, v ≠ t → f current < f v) →
      (upward_walk db visited current = true ↔ reachesUp db current t) := by
  intro n
  induction n using Nat.strong_induction_on with
  | _ n ih =>
    intro current visited hfc hvis hinv
    rw [upward_walk_eq]
    by_cases hv : current ∈ visited
    · rw [if_pos hv]
      have hct : current = t := by
        by_contra hne
        exact absurd (hinv current hv hne) (lt_irrefl _)
      subst hct
      constructor
      · intro _
        exact Relation.ReflTransGen.refl
      · intro _
        rfl
    · rw [if_neg hv]
      have hct : current ≠ t := fun he => hv (he ▸ hvis)
      cases hp : parentOf db current with
      | none =>
        constructor
        · intro h; cases h
        · intro hr
          rcases Relation.ReflTransGen.cases_head hr with he | ⟨c, hc, -⟩
          · exact absurd he hct
          · unfold parentStep at hc
            rw [hp] at hc
            cases hc
      | some x =>
        cases x with
        | none =>
          constructor
          · intro h; cases h
          · intro hr
            rcases Relation.ReflTransGen.cases_head hr with he | ⟨c, hc, -⟩
            · exact absurd he hct
            · unfold parentStep at hc
              rw [hp] at hc
              injection hc with h2
              cases h2
        | some p =>
          have hstep : parentStep db current p := hp
          have hfp : f p < f current := hf current p hstep
          have hiter := ih (f p) (lt_of_lt_of_le hfp hfc) p (current :: visited)
            le_rfl (List.mem_cons_of_mem current hvis) ?_
          · rw [hiter]
            constructor
            · intro hpt
              exact Relation.ReflTransGen.head hstep hpt
            · intro hct2
              rcases Relation.ReflTransGen.cases_head hct2 with he | ⟨c, hc, hr⟩
              · exact absurd he hct
              · have hcp : c = p := by
                  unfold parentStep at hc
                  rw [hp] at hc
                  injection hc with h2
                  injection h2 with h3
                  exact h3.symm
                exact hcp ▸ hr
          · intro v hvm hne
            rcases List.mem_cons.mp hvm with hvc | hvc
            · exact hvc ▸ hfp
            · exact lt_trans hfp (hinv v hvc hne)

/-- C6 (amended).  Over a store whose parent pointers are acyclic —
they admit a rank function strictly decreasing along parent edges —
`_would_create_cycle todoId proposedParentId` is `true` iff
`proposedParentId = todoId`, or the upward walk of parent pointers from
`proposedParentId` reaches `todoId`, or `proposedParentId` is among the
transitive descendants of `todoId` as computed by the child-edge
traversal.  (On corrupt stores whose pointers already form a cycle the
walk additionally answers `true` when it revisits any node, which is
what `c6_counterexample` exhibits.) -/
theorem c6_would_create_cycle_amended (db : List Todo) (f : String → Nat)
    (todo_id new_parent_id : String)
    (hf : ∀ a b, parentStep db a b → f b < f a) :
    (_would_create_cycle db todo_id new_parent_id = true ↔
      (new_parent_id = todo_id ∨ reachesUp db new_parent_id todo_id
        ∨ new_parent_id ∈ _get_all_descendant_ids db todo_id)) := by
  unfold _would_create_cycle
  by_cases he : todo_id = new_parent_id
  · rw [if_pos he]
    simp [he]
  · rw [if_neg he]
    have hiff := upward_walk_true_iff db f hf todo_id (f new_parent_id) new_parent_id
      [todo_id] le_rfl (List.mem_singleton_self _)
      (by
        intro v hvm hne
        rw [List.mem_singleton] at hvm
        exact absurd hvm hne)
    by_cases hw : upward_walk db [todo_id] new_parent_id = true
    · rw [if_pos hw]
      simp [hiff.mp hw]
    · rw [if_neg hw]
      have hnr : ¬ reachesUp db new_parent_id todo_id := fun hr => hw (hiff.mpr hr)
      have hne2 : ¬ (new_parent_id = todo_id) := fun h2 => he h2.symm
      simp [hnr, hne2]

/-- The acyclic two-row store A ← B used by the C6 witness. -/
def chainAB : List Todo := [{ id := "A" }, { id := "B", parent_id := some "A" }]

/-- A rank function strictly decreasing along `chainAB`'s parent edges. -/
def rankAB (s : String) : Nat := if s = "B" then 1 else 0

theorem rankAB_decreasing : ∀ a b, parentStep chainAB a b → rankAB b < rankAB a := by
  intro a b hab
  unfold parentStep parentOf findTodo chainAB at hab
  by_cases h1 : "A" = a
  · subst h1
    simp [List.find?] at hab
  · by_cases h2 : "B" = a
    · subst h2
      simp [List.find?] at hab
      subst hab
      decide
    · have hfn : (List.find? (fun t => t.id = a)
          [({ id := "A" } : Todo), { id := "B", parent_id := some "A" }]) = none := by
        rw [List.find?_eq_none]
        intro t ht
        simp only [List.mem_cons, List.mem_singleton, List.not_mem_nil, or_false] at ht
        rcases ht with h | h
        · subst h
          simp only [decide_eq_true_eq]
          exact h1
        · subst h
          simp only [decide_eq_true_eq]
          exact h2
      rw [hfn] at hab
      cases hab

/-- Witness for the amended C6: on the acyclic store `chainAB`,
reparenting `A` under its child `B` is flagged as a cycle, matching the
graph-level description (B is a descendant of A). -/
theorem c6_would_create_cycle_amended_witness :
    (∀ a b, parentStep chainAB a b → rankAB b < rankAB a) ∧
    (_would_create_cycle chainAB "A" "B" = true ↔
      ("B" = "A" ∨ reachesUp chainAB "B" "A"
        ∨ "B" ∈ _get_all_descendant_ids chainAB "A")) :=
  ⟨rankAB_decreasing,
   c6_would_create_cycle_amended chainAB rankAB "A" "B" rankAB_decreasing⟩
